import Mathlib

/-!
Shallow embedding of `pmb/chroot/apk.py` (pmbootstrap): the installation
decision-and-execution pipeline. Pure Python string/dict manipulation is
translated to Lean functions; stateful collaborators (package builder,
repository index, filesystem, privileged command execution, session cache)
are modelled as explicit state passing over an abstract world type `W`
together with an event trace. Fallible code returns error-carrying results.
-/

namespace Pmb

/-! ### Python string primitives used by the source -/

/-- Python `s.startswith("!")` for the one-character prefix used in the source. -/
def startsWithBang (s : String) : Bool := s.toList.head? == some '!'

/-- Python `s.startswith("-")` for the one-character prefix used in the source. -/
def startsWithDash (s : String) : Bool := s.toList.head? == some '-'

/-- Python `s[1:]`. -/
def pySlice1 (s : String) : String := String.mk s.toList.tail

/-- Python `s.lstrip("!")`: strip every leading `'!'`. -/
def lstripBang (s : String) : String := String.mk (s.toList.dropWhile (fun c => c == '!'))

/-- Python file iteration `for line in handle`: split the raw character
stream into lines, each line keeping its terminating `'\n'`; a final
segment without `'\n'` is yielded as-is when non-empty. -/
def pyLines : List Char → List (List Char)
  | [] => []
  | c :: cs =>
    if c = '\n' then ['\n'] :: pyLines cs
    else
      match pyLines cs with
      | [] => [[c]]
      | l :: ls => (c :: l) :: ls

/-- The read loop of `update_repository_list`: `lines_old.append(line[:-1])`,
i.e. every line read from the file has its final character dropped. -/
def readLines (c : List Char) : List (List Char) :=
  (pyLines c).map List.dropLast

/-- File content that equals a desired line list except that the last line
lacks its trailing newline: the lines joined by single newlines with no
final newline (used to state C10's hypothesis; not part of the source). -/
def joinLines : List (List Char) → List Char
  | [] => []
  | [l] => l
  | l :: l2 :: ls => l ++ '\n' :: joinLines (l2 :: ls)

/-- `os.path.dirname`: everything before the last `'/'`. -/
def pyDirname (s : String) : String :=
  String.mk (((s.toList.reverse.dropWhile (fun c => c ≠ '/')).drop 1).reverse)

/-! ### Data model

`IndexEntry` mirrors the records produced by the external structured
record parser (`pmb.parse.apkindex`): the source only reads the
`version` and `timestamp` fields, and converts the timestamp with
`float(...)`, so the timestamp is modelled as a rational number of
(fractional) seconds. -/

structure IndexEntry where
  version : String
  timestamp : ℚ
deriving DecidableEq, Repr

/-- Return value of `installed()`: mapping package name → installed entry,
modelled as an association list. -/
abbrev Snapshot := List (String × IndexEntry)

/-- The fields of `args` that this module reads. -/
structure Args where
  action : String
  buildPkgsOnInstall : Bool
  offline : Bool
  work : String
deriving DecidableEq, Repr

/-- External collaborators of the install pipeline, over an abstract world
type `W` that the side-effecting build collaborator may update.
  * `vcompare`  : `pmb.parse.version.compare`
  * `index`     : `pmb.parse.apkindex.package(args, package, arch, False)`
  * `buildPkg`  : `pmb.build.package(args, package, arch, force)` (world update)
  * `pmaportsFind` : truthiness of `pmb.helpers.pmaports.find(args, package, False)`
  * `pathExists`: `os.path.exists` on host paths
  * `archOf`    : `pmb.parse.arch.from_chroot_suffix`
  * `recurse`   : `pmb.parse.depends.recurse`
  * `installedOf` : `installed(args, suffix)`
  * `checkOutdatedFails` : whether `pmb.helpers.apk.check_outdated` raises -/
structure Env (W : Type) where
  vcompare : String → String → Int
  index : W → String → String → Option IndexEntry
  buildPkg : W → String → String → Bool → W
  pmaportsFind : String → Bool
  pathExists : W → String → Bool
  archOf : String → String
  recurse : List String → String → List String
  installedOf : String → Snapshot
  checkOutdatedFails : String → Bool

/-- Observable events of the install pipeline (side-effecting collaborator
invocations and log lines relevant to the claims). -/
inductive Event where
  | build (package arch : String) (force : Bool)
  | warnNewerInstalled (package : String)
  | warnForceRebuild (package : String)
  | chrootInit (suffix : String)
  | info (msg : String)
  | apkProgress (command : List String)
  | apkSilent (command : List String)
deriving DecidableEq, Repr

/-- The command an event passes to the package-manager invocation
collaborator (`[]` for events that are not package-manager invocations). -/
def Event.command : Event → List String
  | .apkProgress c => c
  | .apkSilent c => c
  | _ => []

/-- Result of one evaluation of `install_is_necessary`: a returned Python
value (`ret none` models Python's implicit `None` fall-through), a raised
`RuntimeError`, or exhaustion of the recursion fuel (the source recurses
with no bound). -/
inductive NecOut where
  | ret (b : Option Bool)
  | fatal (msg : String)
  | outOfFuel
deriving DecidableEq, Repr

/-- `build_disabled` as computed at the top of `install_is_necessary`. -/
def buildDisabledFor (args : Args) : Bool :=
  args.action == "install" && !args.buildPkgsOnInstall

/-- The world after the optional non-forced build near the top of
`install_is_necessary` (`if build and not build_disabled: pmb.build.package(...)`). -/
def necWorld {W : Type} (env : Env W) (args : Args) (build : Bool)
    (arch package : String) (w : W) : W :=
  if build && !buildDisabledFor args then env.buildPkg w package arch false else w

/-- The events emitted by that optional non-forced build. -/
def necBuildEvents (args : Args) (build : Bool) (arch package : String) : List Event :=
  if build && !buildDisabledFor args then [Event.build package arch false] else []

/-- `install_is_necessary(args, build, arch, package, packages_installed)`.

The source recurses on itself (after a forced rebuild) with no bound, so
the embedding takes an explicit fuel parameter; `.outOfFuel` marks the
recursion still running when the fuel is spent. Returns the result, the
final world and the emitted event trace. -/
def install_is_necessary {W : Type} (env : Env W) (args : Args) :
    Nat → Bool → String → String → Snapshot → W → NecOut × W × List Event
  | 0, _, _, _, _, w => (.outOfFuel, w, [])
  | fuel+1, build, arch, package, packages_installed, w =>
    -- For packages to be removed we can do the test immediately
    if startsWithBang package then
      (.ret (some (List.lookup (pySlice1 package) packages_installed).isSome), w, [])
    else
      let buildDisabled := buildDisabledFor args
      -- Build package
      let w1 := necWorld env args build arch package w
      let ev1 := necBuildEvents args build arch package
      -- No further checks when not installed
      match List.lookup package packages_installed with
      | none => (.ret (some true), w1, ev1)
      | some data_installed =>
        -- Make sure that we really have a binary package
        match env.index w1 package arch with
        | none =>
          if buildDisabled then
            (.fatal (package ++ ": no binary package found for " ++ arch ++
              ", and compiling packages during 'pmbootstrap install' has been"
              ++ " disabled. Consider changing this option in 'pmbootstrap init'."),
             w1, ev1)
          else
            let w2 := env.buildPkg w1 package arch true
            let r := install_is_necessary env args fuel build arch package
              packages_installed w2
            (r.1, r.2.1,
             ev1 ++ [Event.warnForceRebuild package, Event.build package arch true]
                 ++ r.2.2)
        | some data_repo =>
          -- Compare the installed version vs. the version in the repos
          let c := env.vcompare data_installed.version data_repo.version
          if c = 1 then
            (.ret (some false), w1, ev1 ++ [Event.warnNewerInstalled package])
          else if c = -1 then
            (.ret (some true), w1, ev1)
          else if c = 0 then
            (.ret (some (decide (data_installed.timestamp < data_repo.timestamp))),
             w1, ev1)
          else
            (.ret none, w1, ev1)

/-! ### Local Path Resolver: `replace_aports_packages_with_path` -/

/-- The architecture/version-qualified artifact path built in
`replace_aports_packages_with_path`. -/
def apkPath (arch package version : String) : String :=
  "/mnt/pmbootstrap-packages/" ++ arch ++ "/" ++ package ++ "-" ++ version ++ ".apk"

/-- The body of the loop of `replace_aports_packages_with_path` for one
package. -/
def replace_one {W : Type} (env : Env W) (args : Args) (suffix arch : String)
    (w : W) (package : String) : Except String String :=
  if env.pmaportsFind package then
    match env.index w package arch with
    | none =>
      .error (package ++ ": could not find binary package, although it should"
        ++ " exist for sure at this point in the code. Probably an APKBUILD"
        ++ " subpackage parsing bug. Related: https://gitlab.com/postmarketOS/"
        ++ "build.postmarketos.org/issues/61")
    | some data_repo =>
      if env.pathExists w (args.work ++ "/chroot_" ++ suffix ++
          apkPath arch package data_repo.version) then
        .ok (apkPath arch package data_repo.version)
      else
        .ok package
  else
    .ok package

/-- `replace_aports_packages_with_path(args, packages, suffix, arch)`: the
loop over the package list, raising at the first failing package (Python
exception semantics). -/
def replace_aports_packages_with_path {W : Type} (env : Env W) (args : Args)
    (suffix arch : String) (w : W) : List String → Except String (List String)
  | [] => .ok []
  | p :: ps =>
    match replace_one env args suffix arch w p with
    | .error e => .error e
    | .ok q =>
      match replace_aports_packages_with_path env args suffix arch w ps with
      | .error e => .error e
      | .ok qs => .ok (q :: qs)

/-! ### Version Gate: `check_min_version` -/

/-- State threaded through the planner: the abstract collaborator world and
the session cache `pmb.helpers.other.cache["apk_min_version_checked"]`. -/
structure PState (W : Type) where
  world : W
  minChecked : List String
deriving DecidableEq, Repr

/-- `check_min_version(args, suffix)`: skip when already checked or when apk
is not installed yet; otherwise read apk-tools' installed version (a missing
key is a raised `KeyError`) and fail when the outdated-check collaborator
fails; on success mark the suffix checked. -/
def check_min_version {W : Type} (env : Env W) (args : Args) (suffix : String)
    (st : PState W) : Except String (PState W) :=
  if suffix ∈ st.minChecked then .ok st
  else if !env.pathExists st.world (args.work ++ "/chroot_" ++ suffix ++ "/sbin/apk") then
    .ok st
  else
    match List.lookup "apk-tools" (env.installedOf suffix) with
    | none => .error "KeyError: apk-tools"
    | some entry =>
      if env.checkOutdatedFails entry.version then
        .error ("apk-tools version " ++ entry.version ++ " outdated."
          ++ " Delete your http cache and zap all chroots, then try again:"
          ++ " 'pmbootstrap zap -hc'")
      else
        .ok { st with minChecked := st.minChecked ++ [suffix] }

/-! ### Installation Planner: `install` -/

/-- Outcome of one `install` call. -/
inductive Outcome where
  | ok
  | err (msg : String)
  | outOfFuel
deriving DecidableEq, Repr

/-- Result of the partition loop of `install` (lines 205-214). -/
inductive PartOut where
  | ok (toadd todel : List String)
  | err (msg : String)
  | outOfFuel
deriving DecidableEq, Repr

/-- The filter loop of `install`: for each package of the dependency
closure, keep it only when `install_is_necessary` is truthy; `!`-marked
packages go to the delete list with the markers stripped, the rest to the
add list, in iteration order. -/
def partition_packages {W : Type} (env : Env W) (args : Args) (fuel : Nat)
    (build : Bool) (arch : String) (packages_installed : Snapshot) :
    List String → List String → List String → W →
    PartOut × W × List Event
  | [], toadd, todel, w => (.ok toadd todel, w, [])
  | package :: rest, toadd, todel, w =>
    match install_is_necessary env args fuel build arch package packages_installed w with
    | (.fatal msg, w1, ev1) => (.err msg, w1, ev1)
    | (.outOfFuel, w1, ev1) => (.outOfFuel, w1, ev1)
    | (.ret b, w1, ev1) =>
      let next :=
        if b = some true then
          if startsWithBang package then (toadd, todel ++ [lstripBang package])
          else (toadd ++ [package], todel)
        else (toadd, todel)
      let r := partition_packages env args fuel build arch packages_installed
        rest next.1 next.2 w1
      (r.1, r.2.1, ev1 ++ r.2.2)

/-- The readable install message of `install` (lines 225-228): the requested
names not already installed, appended to `"(suffix) install"`. -/
def install_message (suffix : String) (packages : List String)
    (packages_installed : Snapshot) : String :=
  packages.foldl
    (fun m p => if (List.lookup p packages_installed).isNone then m ++ " " ++ p else m)
    ("(" ++ suffix ++ ") install")

/-- The command sequence composed by `install` (lines 242-249) from the
conflict-free requested set, the path-resolved add list and the delete
list. -/
def compose_commands (packages_without_conflicts packages_toadd packages_todel :
    List String) : List (List String) :=
  (if packages_toadd ≠ [] ∧ packages_without_conflicts ≠ packages_toadd then
      [["add", "-u", "--virtual", ".pmbootstrap"] ++ packages_toadd,
       ["add"] ++ packages_without_conflicts,
       ["del", ".pmbootstrap"]]
    else
      [["add"] ++ packages_without_conflicts]) ++
    (if packages_todel ≠ [] then [["del"] ++ packages_todel] else [])

/-- The execution loop of `install` (lines 250-261): in offline mode every
command gets `--no-network` injected; command 0 runs with progress
reporting, the rest through `apk --no-progress`. -/
def exec_events (offline : Bool) : List (List String) → List Event
  | [] => []
  | c0 :: rest =>
    Event.apkProgress ("apk" :: (if offline then "--no-network" :: c0 else c0)) ::
      rest.map (fun c =>
        Event.apkSilent ("apk" :: "--no-progress" ::
          (if offline then "--no-network" :: c else c)))

/-- Result of one `install` call: outcome, final state and event trace. -/
structure InstResult (W : Type) where
  outcome : Outcome
  st : PState W
  events : List Event
deriving DecidableEq, Repr

/-- `install(args, packages, suffix, build)`: version gate, chroot init,
dependency expansion, necessity partition, `-`-prefix sanitization,
local-path resolution, command composition and execution. -/
def install {W : Type} (env : Env W) (args : Args) (fuel : Nat)
    (packages : List String) (suffix : String) (build : Bool)
    (st : PState W) : InstResult W :=
  match check_min_version env args suffix st with
  | .error msg => ⟨.err msg, st, []⟩
  | .ok st1 =>
    let ev0 := [Event.chrootInit suffix]
    let arch := env.archOf suffix
    let packages_with_depends := env.recurse packages suffix
    let packages_installed := env.installedOf suffix
    match partition_packages env args fuel build arch packages_installed
        packages_with_depends [] [] st1.world with
    | (.err msg, w2, ev1) => ⟨.err msg, ⟨w2, st1.minChecked⟩, ev0 ++ ev1⟩
    | (.outOfFuel, w2, ev1) => ⟨.outOfFuel, ⟨w2, st1.minChecked⟩, ev0 ++ ev1⟩
    | (.ok packages_toadd packages_todel, w2, ev1) =>
      if packages_toadd = [] ∧ packages_todel = [] then
        ⟨.ok, ⟨w2, st1.minChecked⟩, ev0 ++ ev1⟩
      else
        -- Sanitize packages: don't allow '--allow-untrusted' and other
        -- options to be passed to apk!
        match (packages_toadd ++ packages_todel).find? startsWithDash with
        | some p =>
          ⟨.err ("Invalid package name: " ++ p), ⟨w2, st1.minChecked⟩, ev0 ++ ev1⟩
        | none =>
          let evMsg := [Event.info (install_message suffix packages packages_installed)]
          match replace_aports_packages_with_path env args suffix arch w2
              packages_toadd with
          | .error msg =>
            ⟨.err msg, ⟨w2, st1.minChecked⟩, ev0 ++ ev1 ++ evMsg⟩
          | .ok packages_toadd2 =>
            let packages_without_conflicts :=
              packages.filter (fun p => !startsWithBang p)
            let commands :=
              compose_commands packages_without_conflicts packages_toadd2
                packages_todel
            ⟨.ok, ⟨w2, st1.minChecked⟩,
             ev0 ++ ev1 ++ evMsg ++ exec_events args.offline commands⟩

/-! ### Repository List Synchronizer: `update_repository_list`

The filesystem state relevant to this function is the repository list file
(raw character content, `none` when the file does not exist) and the
session cache `pmb.helpers.other.cache["apk_repository_list_updated"]`.
Privileged `pmb.helpers.run.root` invocations are recorded as events:
`mkdir -p` of the containing directory, `rm` of the file, and the per-line
`sh -c "echo <line> >> <path>"` appends (each append writes the line
followed by a newline). -/

structure SyncSt where
  file : Option (List Char)
  cache : List String
deriving DecidableEq, Repr

inductive SyncEvent where
  | mkdirParents (dir : String)
  | rm (path : String)
  | echoAppend (line : List Char) (path : String)
deriving DecidableEq, Repr

structure SyncResult where
  error : Option String
  st : SyncSt
  events : List SyncEvent
deriving DecidableEq, Repr

/-- The content the rewrite loop of `update_repository_list` leaves in the
file: every desired line appended followed by a newline. -/
def writtenContent (desired : List (List Char)) : List Char :=
  desired.foldl (fun acc l => acc ++ l ++ ['\n']) []

/-- `lines_old` as computed by `update_repository_list`: the lines read
from the existing file (each with its final character dropped), or `[]`
for a missing file. -/
def linesOldOf (st : SyncSt) : List (List Char) :=
  match st.file with
  | some c => readLines c
  | none => []

/-- The events of the read phase of `update_repository_list`: a privileged
`mkdir -p` of the containing directory when the file does not exist. -/
def readEvents (path : String) (st : SyncSt) : List SyncEvent :=
  match st.file with
  | some _ => []
  | none => [SyncEvent.mkdirParents (pyDirname path)]

/-- `update_repository_list(args, suffix, check)`. `desired` is the result
of the external `pmb.helpers.repo.urls(args)` collaborator, `path` the
repository file path derived from `args.work` and the suffix. The source
calls itself once with `check=True` after rewriting; the embedding takes a
fuel parameter for that self-call (fuel `≥ 2` never runs out, since the
`check=True` call raises before reaching the rewrite section). -/
def update_repository_list (desired : List (List Char)) (path suffix : String) :
    Nat → Bool → SyncSt → SyncResult
  | 0, _, st => ⟨some "out of fuel", st, []⟩
  | fuel+1, check, st =>
    -- Skip if we already did this
    if suffix ∈ st.cache then ⟨none, st, []⟩
    -- Read old entries or create folder structure;
    -- up to date: save cache, return
    else if linesOldOf st = desired then
      ⟨none, { st with cache := st.cache ++ [suffix] }, readEvents path st⟩
    -- Check phase: raise error when still outdated
    else if check then
      ⟨some ("Failed to update: " ++ path), st, readEvents path st⟩
    else
      -- Update the file
      let evRm : List SyncEvent :=
        if st.file.isSome then [SyncEvent.rm path] else []
      let evEcho := desired.map (fun l => SyncEvent.echoAppend l path)
      let st2 : SyncSt := { st with file := some (writtenContent desired) }
      let r := update_repository_list desired path suffix fuel true st2
      ⟨r.error, r.st, readEvents path st ++ evRm ++ evEcho ++ r.events⟩

/-! ### Concrete collaborator instantiations used to evaluate the model

The abstract world is instantiated with `Nat`, counting invocations of the
build collaborator. -/

/-- A minimal collaborator environment: empty repository index, empty
installed database, no aports, no files on disk. -/
def envTriv : Env Nat where
  vcompare _ _ := 0
  index _ _ _ := none
  buildPkg w _ _ _ := w + 1
  pmaportsFind _ := false
  pathExists _ _ := false
  archOf _ := "x86_64"
  recurse ps _ := ps
  installedOf _ := []
  checkOutdatedFails _ := false

/-- An `args` with building allowed (`action ≠ "install"`), online. -/
def argsA : Args := ⟨"zap", true, false, "/w"⟩

/-- Scenario B collaborators: repository index has "foo" at version
"1.0-r1" with timestamp 200. -/
def envB : Env Nat :=
  { envTriv with
    index := fun _ p _ => if p == "foo" then some ⟨"1.0-r1", 200⟩ else none }

/-- Collaborators for the flag-smuggling run: "-x" is installed at version
"2" while the repository only has version "1" (installed newer). -/
def envC4 : Env Nat :=
  { envTriv with
    vcompare := fun a b => if a == b then 0 else if a == "2" then 1 else -1
    index := fun _ p _ => if p == "-x" then some ⟨"1", 0⟩ else none
    installedOf := fun _ => [("-x", ⟨"2", 0⟩), ("b", ⟨"1", 0⟩)] }

/-- Scenario D collaborators: "b" installed, "a" neither installed nor
locally buildable, repository index empty. -/
def envD : Env Nat :=
  { envTriv with installedOf := fun _ => [("b", ⟨"1", 0⟩)] }

/-- Scenario E collaborators: "p" installed but the repository index never
has an entry for it, no matter how often the build collaborator runs. -/
def envLoop : Env Nat :=
  { envTriv with installedOf := fun _ => [("p", ⟨"1", 0⟩)] }

/-- Local Path Resolver collaborators: "hello" is locally buildable with a
repository entry at version "1.0-r0" whose built artifact exists inside
the chroot. -/
def envC9 : Env Nat :=
  { envTriv with
    pmaportsFind := fun p => p == "hello"
    index := fun _ p _ => if p == "hello" then some ⟨"1.0-r0", 0⟩ else none
    pathExists := fun _ s =>
      s == "/w/chroot_native/mnt/pmbootstrap-packages/x86_64/hello-1.0-r0.apk" }

/-! ## Claims -/

/-- **C2**: for every removal spec of the form `!name`,
`install_is_necessary` returns True iff `name` is a key of the installed
snapshot, for every value of the build-allowed flag and every architecture,
without invoking the build collaborator (the world is unchanged and the
event trace is empty). -/
theorem claim_C2_removal_spec {W : Type} (env : Env W) (args : Args) (fuel : Nat)
    (build : Bool) (arch package : String) (snap : Snapshot) (w : W)
    (h : startsWithBang package = true) :
    install_is_necessary env args (fuel + 1) build arch package snap w =
      (.ret (some (List.lookup (pySlice1 package) snap).isSome), w, []) := by
  simp [install_is_necessary, h]

theorem claim_C2_removal_spec_witness :
    startsWithBang "!foo" = true ∧
    install_is_necessary envTriv argsA 1 true "x86_64" "!foo" [("foo", ⟨"1", 0⟩)] 0 =
      (.ret (some true), 0, []) := by
  refine ⟨by decide, ?_⟩
  rw [claim_C2_removal_spec envTriv argsA 0 true "x86_64" "!foo"
    [("foo", ⟨"1", 0⟩)] 0 (by decide)]
  decide

/-- **C1**: for every package spec without a `!` prefix that is present in
the installed snapshot and has a repository index entry (at the world after
the optional non-forced build), `install_is_necessary` returns False — with
a warning logged — when the installed version compares strictly greater
(`compare = 1`); True when the repo version compares strictly greater
(`compare = -1`); and on equal versions (`compare = 0`) True iff the repo
entry's timestamp is strictly greater than the installed entry's. -/
theorem claim_C1_version_decision {W : Type} (env : Env W) (args : Args) (fuel : Nat)
    (build : Bool) (arch package : String) (snap : Snapshot) (w : W)
    (di dr : IndexEntry)
    (hbang : startsWithBang package = false)
    (hinst : List.lookup package snap = some di)
    (hrepo : env.index (necWorld env args build arch package w) package arch = some dr) :
    (env.vcompare di.version dr.version = 1 →
      (install_is_necessary env args (fuel + 1) build arch package snap w).1 =
          .ret (some false) ∧
        Event.warnNewerInstalled package ∈
          (install_is_necessary env args (fuel + 1) build arch package snap w).2.2) ∧
    (env.vcompare di.version dr.version = -1 →
      (install_is_necessary env args (fuel + 1) build arch package snap w).1 =
        .ret (some true)) ∧
    (env.vcompare di.version dr.version = 0 →
      ((install_is_necessary env args (fuel + 1) build arch package snap w).1 =
          .ret (some true) ↔ di.timestamp < dr.timestamp)) := by
  refine ⟨fun h1 => ?_, fun h2 => ?_, fun h3 => ?_⟩
  · simp [install_is_necessary, hbang, hinst, hrepo, h1]
  · simp [install_is_necessary, hbang, hinst, hrepo, h2]
  · simp [install_is_necessary, hbang, hinst, hrepo, h3]

theorem claim_C1_version_decision_witness :
    startsWithBang "foo" = false ∧
    List.lookup "foo" [("foo", (⟨"1.0-r1", 100⟩ : IndexEntry))] =
      some ⟨"1.0-r1", 100⟩ ∧
    envB.index (necWorld envB argsA false "x86_64" "foo" 0) "foo" "x86_64" =
      some ⟨"1.0-r1", 200⟩ ∧
    envB.vcompare "1.0-r1" "1.0-r1" = 0 ∧
    (install_is_necessary envB argsA 1 false "x86_64" "foo"
        [("foo", ⟨"1.0-r1", 100⟩)] 0).1 = .ret (some true) := by
  refine ⟨by decide, by decide, by decide, by decide, ?_⟩
  exact ((claim_C1_version_decision envB argsA 0 false "x86_64" "foo"
      [("foo", ⟨"1.0-r1", 100⟩)] 0 ⟨"1.0-r1", 100⟩ ⟨"1.0-r1", 200⟩ (by decide)
      (by decide) (by decide)).2.2 (by decide)).mpr (by decide)

/-- **C9**: for every package that the aports lookup recognizes as locally
built, `replace_aports_packages_with_path` raises a fatal
internal-consistency error when no repository index entry exists; otherwise
the name is replaced in the output list by the architecture- and
version-qualified absolute artifact path iff that artifact exists on disk
inside the chroot, and left unchanged otherwise. -/
theorem claim_C9_local_path_resolver {W : Type} (env : Env W) (args : Args)
    (suffix arch : String) (w : W) (p : String) (ps : List String)
    (hfind : env.pmaportsFind p = true) :
    (env.index w p arch = none →
      replace_aports_packages_with_path env args suffix arch w (p :: ps) =
        .error (p ++ ": could not find binary package, although it should"
          ++ " exist for sure at this point in the code. Probably an APKBUILD"
          ++ " subpackage parsing bug. Related: https://gitlab.com/postmarketOS/"
          ++ "build.postmarketos.org/issues/61")) ∧
    (∀ dr, env.index w p arch = some dr →
      ∀ rest, replace_aports_packages_with_path env args suffix arch w ps = .ok rest →
        replace_aports_packages_with_path env args suffix arch w (p :: ps) =
          .ok ((if env.pathExists w (args.work ++ "/chroot_" ++ suffix ++
               apkPath arch p dr.version) = true
             then apkPath arch p dr.version else p) :: rest)) := by
  constructor
  · intro hnone
    simp [replace_aports_packages_with_path, replace_one, hfind, hnone]
  · intro dr hdr rest hrest
    by_cases he : env.pathExists w (args.work ++ "/chroot_" ++ suffix ++
      apkPath arch p dr.version) = true
    · simp [replace_aports_packages_with_path, replace_one, hfind, hdr, hrest, he]
    · rw [Bool.not_eq_true] at he
      simp [replace_aports_packages_with_path, replace_one, hfind, hdr, hrest, he]

theorem claim_C9_local_path_resolver_witness :
    envC9.pmaportsFind "hello" = true ∧
    envC9.index 0 "hello" "x86_64" = some ⟨"1.0-r0", 0⟩ ∧
    replace_aports_packages_with_path envC9 argsA "native" "x86_64" 0 [] = .ok [] ∧
    replace_aports_packages_with_path envC9 argsA "native" "x86_64" 0 ["hello"] =
      .ok ["/mnt/pmbootstrap-packages/x86_64/hello-1.0-r0.apk"] := by
  refine ⟨by decide, by decide, rfl, ?_⟩
  rw [(claim_C9_local_path_resolver envC9 argsA "native" "x86_64" 0 "hello" []
      (by decide)).2 ⟨"1.0-r0", 0⟩ (by decide) [] rfl]
  rw [if_pos (by decide)]
  rfl

/-- **C6 counterexample**: with package "p" installed, building enabled and
not disabled by policy, but the repository index entry always absent, the
evaluation does not fail fatally after a single retry: with fuel 4 it is
still recursing (out of fuel) and has forced at least two rebuilds for the
same inputs, refuting "re-runs the evaluation at most once" and "fails
fatally rather than retrying again". -/
theorem claim_C6_counterexample :
    (install_is_necessary envLoop argsA 4 true "x86_64" "p" [("p", ⟨"1", 0⟩)] 0).1 =
      .outOfFuel ∧
    2 ≤ ((install_is_necessary envLoop argsA 4 true "x86_64" "p"
        [("p", ⟨"1", 0⟩)] 0).2.2.count (Event.build "p" "x86_64" true)) := by
  decide

/-- **C6 amended**: for a package present in the installed snapshot with
building enabled and not disabled by policy, when the repository index
entry is absent `install_is_necessary` warns, forces a rebuild and re-runs
itself with no retry bound: if the index entry never appears the
evaluation never terminates (every fuel is exhausted) and never raises the
fatal error. -/
theorem claim_C6_amended {W : Type} (env : Env W) (args : Args) (build : Bool)
    (arch package : String) (snap : Snapshot)
    (hbang : startsWithBang package = false)
    (hinst : (List.lookup package snap).isSome = true)
    (hdis : buildDisabledFor args = false)
    (hidx : ∀ w', env.index w' package arch = none) :
    ∀ fuel w, (install_is_necessary env args fuel build arch package snap w).1 =
      .outOfFuel := by
  intro fuel
  induction fuel with
  | zero => intro w; simp [install_is_necessary]
  | succ n ih =>
    intro w
    obtain ⟨di, hdi⟩ := Option.isSome_iff_exists.mp hinst
    simp [install_is_necessary, hbang, hdi, hidx, hdis, ih]

theorem claim_C6_amended_witness :
    startsWithBang "p" = false ∧
    (List.lookup "p" [("p", (⟨"1", 0⟩ : IndexEntry))]).isSome = true ∧
    buildDisabledFor argsA = false ∧
    (install_is_necessary envLoop argsA 7 true "x86_64" "p" [("p", ⟨"1", 0⟩)] 0).1 =
      .outOfFuel := by
  refine ⟨by decide, by decide, by decide, ?_⟩
  exact claim_C6_amended envLoop argsA true "x86_64" "p" [("p", ⟨"1", 0⟩)]
    (by decide) (by decide) (by decide) (fun w' => rfl) 7 0

/-! ### Line-splitting arithmetic (for the trailing-newline claim) -/

theorem pyLines_cons_ne_nil (a : Char) (as : List Char) : pyLines (a :: as) ≠ [] := by
  simp only [pyLines]
  split
  · simp
  · split <;> simp

theorem pyLines_sum_length : ∀ c : List Char,
    ((pyLines c).map List.length).sum = c.length := by
  intro c
  induction c with
  | nil => simp [pyLines]
  | cons a as ih =>
    by_cases ha : a = '\n'
    · simp [pyLines, ha] at ih ⊢
      omega
    · cases hp : pyLines as with
      | nil =>
        have has : as = [] := by
          cases as with
          | nil => rfl
          | cons b bs => exact absurd hp (pyLines_cons_ne_nil b bs)
        subst has
        simp [pyLines, ha]
      | cons l ls =>
        rw [hp] at ih
        simp [pyLines, ha, hp] at ih ⊢
        omega

theorem pyLines_ne_nil : ∀ c : List Char, ∀ l ∈ pyLines c, l ≠ [] := by
  intro c
  induction c with
  | nil => simp [pyLines]
  | cons a as ih =>
    intro l hl
    by_cases ha : a = '\n'
    · simp [pyLines, ha] at hl
      rcases hl with h | h
      · subst h; simp
      · exact ih l h
    · cases hp : pyLines as with
      | nil =>
        simp [pyLines, ha, hp] at hl
        subst hl; simp
      | cons m ms =>
        simp [pyLines, ha, hp] at hl
        rcases hl with h | h
        · subst h; simp
        · exact ih l (by rw [hp]; simp [h])

theorem joinLines_length : ∀ ds : List (List Char), ds ≠ [] →
    (joinLines ds).length + 1 = (ds.map List.length).sum + ds.length := by
  intro ds
  induction ds with
  | nil => intro h; exact absurd rfl h
  | cons l ls ih =>
    intro _
    cases ls with
    | nil => simp [joinLines]
    | cons l2 ls2 =>
      have h2 := ih (by simp)
      simp only [joinLines, List.length_append, List.length_cons, List.map_cons,
        List.sum_cons] at h2 ⊢
      omega

theorem sum_length_of_ne_nil : ∀ L : List (List Char), (∀ l ∈ L, l ≠ []) →
    (L.map List.length).sum = (L.map (fun l => l.dropLast.length)).sum + L.length := by
  intro L
  induction L with
  | nil => simp
  | cons l ls ih =>
    intro h
    have hl : l ≠ [] := h l (by simp)
    have h1 : l.dropLast.length = l.length - 1 := by simp
    have h2 : 1 ≤ l.length := List.length_pos.mpr hl
    have h3 := ih (fun x hx => h x (by simp [hx]))
    simp only [List.map_cons, List.sum_cons, List.length_cons]
    omega

/-- Dropping the last character of every physical line of a file whose last
line lacks the trailing newline never reproduces the desired list. -/
theorem readLines_joinLines_ne (ds : List (List Char)) (h : ds ≠ []) :
    readLines (joinLines ds) ≠ ds := by
  intro heq
  have hmap : (pyLines (joinLines ds)).map List.dropLast = ds := heq
  have hlen : (pyLines (joinLines ds)).length = ds.length := by
    have := congrArg List.length hmap
    simpa using this
  have hsum := pyLines_sum_length (joinLines ds)
  have hnn := pyLines_ne_nil (joinLines ds)
  have hkey := sum_length_of_ne_nil (pyLines (joinLines ds)) hnn
  have hdrop : ((pyLines (joinLines ds)).map (fun l => l.dropLast.length)).sum
      = (ds.map List.length).sum := by
    have h5 : ((pyLines (joinLines ds)).map List.dropLast).map List.length
        = ds.map List.length := by rw [hmap]
    calc ((pyLines (joinLines ds)).map (fun l => l.dropLast.length)).sum
        = (((pyLines (joinLines ds)).map List.dropLast).map List.length).sum := by
          rw [List.map_map]; rfl
      _ = (ds.map List.length).sum := by rw [h5]
  have hjl := joinLines_length ds h
  rw [hdrop, hlen, hsum] at hkey
  omega

/-- Unfolding helper: the write phase of `update_repository_list` (suffix
not cached, initial mismatch) performs the rewrite events and hands over to
the single `check=True` self-call on the rewritten file. -/
theorem sync_unfold_write (n : Nat) (desired : List (List Char))
    (path suffix : String) (st : SyncSt)
    (hc : suffix ∉ st.cache)
    (hmm : linesOldOf st ≠ desired) :
    update_repository_list desired path suffix (n + 2) false st =
      ⟨(update_repository_list desired path suffix (n+1) true
          ⟨some (writtenContent desired), st.cache⟩).error,
        (update_repository_list desired path suffix (n+1) true
          ⟨some (writtenContent desired), st.cache⟩).st,
        readEvents path st ++ (if st.file.isSome then [SyncEvent.rm path] else []) ++
          desired.map (fun l => SyncEvent.echoAppend l path) ++
          (update_repository_list desired path suffix (n+1) true
            ⟨some (writtenContent desired), st.cache⟩).events⟩ := by
  conv_lhs => rw [update_repository_list]
  rw [if_neg hc, if_neg hmm]
  rfl

/-- **C7**: when the on-disk repository list initially differs from the
desired list (and the suffix is not cached), `update_repository_list`
rewrites the file (one `rm` when it existed, then one append per desired
line) and re-runs the comparison exactly once: if the re-read lines equal
the desired list it marks the suffix synchronized and returns without
error; if they still differ it raises a fatal error naming the file path
and performs no further rewrite (the event trace holds exactly one rewrite
in both cases). -/
theorem claim_C7_rewrite_verify_once (n : Nat) (desired : List (List Char))
    (path suffix : String) (st : SyncSt)
    (hc : suffix ∉ st.cache)
    (hmm : linesOldOf st ≠ desired) :
    (readLines (writtenContent desired) = desired →
      update_repository_list desired path suffix (n+2) false st =
        ⟨none, ⟨some (writtenContent desired), st.cache ++ [suffix]⟩,
          readEvents path st ++ (if st.file.isSome then [SyncEvent.rm path] else []) ++
            desired.map (fun l => SyncEvent.echoAppend l path)⟩) ∧
    (readLines (writtenContent desired) ≠ desired →
      update_repository_list desired path suffix (n+2) false st =
        ⟨some ("Failed to update: " ++ path),
          ⟨some (writtenContent desired), st.cache⟩,
          readEvents path st ++ (if st.file.isSome then [SyncEvent.rm path] else []) ++
            desired.map (fun l => SyncEvent.echoAppend l path)⟩) := by
  have hstep := sync_unfold_write n desired path suffix st hc hmm
  constructor
  · intro hok
    rw [hstep]
    conv_lhs => rw [update_repository_list]
    rw [if_neg hc]
    rw [if_pos (show linesOldOf ⟨some (writtenContent desired), st.cache⟩ = desired
      from hok)]
    simp [readEvents]
  · intro hbad
    rw [hstep]
    conv_lhs => rw [update_repository_list]
    rw [if_neg hc]
    rw [if_neg (show ¬ linesOldOf ⟨some (writtenContent desired), st.cache⟩ = desired
      from hbad)]
    simp [readEvents]

theorem claim_C7_rewrite_verify_once_witness :
    "native" ∉ ([] : List String) ∧
    linesOldOf ⟨none, []⟩ ≠ [['a'], ['b']] ∧
    readLines (writtenContent [['a'], ['b']]) = [['a'], ['b']] ∧
    update_repository_list [['a'], ['b']] "/r" "native" 2 false ⟨none, []⟩ =
      ⟨none, ⟨some (writtenContent [['a'], ['b']]), ["native"]⟩,
        [SyncEvent.mkdirParents "", SyncEvent.echoAppend ['a'] "/r",
         SyncEvent.echoAppend ['b'] "/r"]⟩ := by
  refine ⟨by decide, by decide, by decide, ?_⟩
  rw [(claim_C7_rewrite_verify_once 0 [['a'], ['b']] "/r" "native" ⟨none, []⟩
      (by decide) (by decide)).1 (by decide)]
  decide

/-- A successful synchronizer call leaves the suffix in the session cache. -/
theorem sync_success_mem_cache (n : Nat) (desired : List (List Char))
    (path suffix : String) (st : SyncSt)
    (h : (update_repository_list desired path suffix (n+2) false st).error = none) :
    suffix ∈ (update_repository_list desired path suffix (n+2) false st).st.cache := by
  by_cases hc : suffix ∈ st.cache
  · have h1 : update_repository_list desired path suffix (n+2) false st =
        ⟨none, st, []⟩ := by
      rw [update_repository_list, if_pos hc]
    rw [h1]
    exact hc
  · by_cases hup : linesOldOf st = desired
    · have h1 : update_repository_list desired path suffix (n+2) false st =
          ⟨none, { st with cache := st.cache ++ [suffix] }, readEvents path st⟩ := by
        rw [update_repository_list, if_neg hc, if_pos hup]
      rw [h1]
      simp
    · rw [sync_unfold_write n desired path suffix st hc hup] at h ⊢
      by_cases hok : readLines (writtenContent desired) = desired
      · have h2 : update_repository_list desired path suffix (n+1) true
            ⟨some (writtenContent desired), st.cache⟩ =
            ⟨none, ⟨some (writtenContent desired), st.cache ++ [suffix]⟩, []⟩ := by
          rw [update_repository_list, if_neg hc,
            if_pos (show linesOldOf ⟨some (writtenContent desired), st.cache⟩ = desired
              from hok)]
          rfl
        rw [h2]
        simp
      · have h2 : update_repository_list desired path suffix (n+1) true
            ⟨some (writtenContent desired), st.cache⟩ =
            ⟨some ("Failed to update: " ++ path),
              ⟨some (writtenContent desired), st.cache⟩, []⟩ := by
          rw [update_repository_list, if_neg hc,
            if_neg (show ¬ linesOldOf ⟨some (writtenContent desired), st.cache⟩ = desired
              from hok)]
          rfl
        rw [h2] at h
        simp at h

/-- **C8**: after one successful synchronizer call, a second call in the
same session (any positive fuel) returns from the session-cache check with
no error, no events (zero filesystem writes) and an unchanged state. -/
theorem claim_C8_second_call_no_writes (n m : Nat) (desired : List (List Char))
    (path suffix : String) (st : SyncSt)
    (h : (update_repository_list desired path suffix (n+2) false st).error = none) :
    update_repository_list desired path suffix (m+1) false
        (update_repository_list desired path suffix (n+2) false st).st =
      ⟨none, (update_repository_list desired path suffix (n+2) false st).st, []⟩ := by
  rw [update_repository_list,
    if_pos (sync_success_mem_cache n desired path suffix st h)]

theorem claim_C8_second_call_no_writes_witness :
    (update_repository_list [['a']] "/r" "native" 2 false ⟨none, []⟩).error = none ∧
    update_repository_list [['a']] "/r" "native" 1 false
        (update_repository_list [['a']] "/r" "native" 2 false ⟨none, []⟩).st =
      ⟨none, (update_repository_list [['a']] "/r" "native" 2 false ⟨none, []⟩).st,
        []⟩ := by
  refine ⟨by decide, ?_⟩
  exact claim_C8_second_call_no_writes 0 0 [['a']] "/r" "native" ⟨none, []⟩ (by decide)

/-- **C10 counterexample**: the file "a\nbb" (last line without a trailing
newline) is considered synchronized against the desired list ["a", "b"]
— no rewrite, no error, suffix cached — because dropping the final
character of each line yields exactly ["a", "b"]; so a file can be
considered synchronized although its last line does not end with a
newline, refuting the claim's final clause. -/
theorem claim_C10_counterexample :
    update_repository_list [['a'], ['b']] "/r" "native" 2 false
        ⟨some ['a', '\n', 'b', 'b'], []⟩ =
      ⟨none, ⟨some ['a', '\n', 'b', 'b'], ["native"]⟩, []⟩ ∧
    ['a', '\n', 'b', 'b'].getLast? = some 'b' := by
  decide

/-- Events of the `check=True` self-call: the file exists after the
rewrite, so the read phase emits nothing, and both outcomes (match or
fatal error) return without further events. -/
theorem sync_check_events_nil (k : Nat) (desired : List (List Char))
    (path suffix : String) (c : List Char) (cache : List String)
    (hc : suffix ∉ cache) :
    (update_repository_list desired path suffix (k+1) true ⟨some c, cache⟩).events
      = [] := by
  by_cases hup : linesOldOf ⟨some c, cache⟩ = desired
  · rw [update_repository_list, if_neg hc, if_pos hup]
    rfl
  · rw [update_repository_list, if_neg hc, if_neg hup]
    rfl

/-- **C10 amended**: the read loop drops the final character of every
line, so a file whose content is the desired lines joined by newlines but
missing the final newline always compares as a mismatch and is rewritten
(one `rm` plus one append per line); however the file is considered
synchronized (no write events, no error) iff dropping the final character
of each physical line yields exactly the desired list — a trailing newline
on the last line is sufficient but not necessary for that. -/
theorem claim_C10_amended :
    (∀ ds : List (List Char), ds ≠ [] → readLines (joinLines ds) ≠ ds) ∧
    (∀ (n : Nat) (ds : List (List Char)) (path suffix : String)
        (cache : List String), ds ≠ [] → suffix ∉ cache →
      (update_repository_list ds path suffix (n+2) false
          ⟨some (joinLines ds), cache⟩).events =
        SyncEvent.rm path :: ds.map (fun l => SyncEvent.echoAppend l path)) ∧
    (∀ (n : Nat) (c : List Char) (ds : List (List Char)) (path suffix : String)
        (cache : List String), suffix ∉ cache →
      (((update_repository_list ds path suffix (n+2) false
            ⟨some c, cache⟩).events = [] ∧
        (update_repository_list ds path suffix (n+2) false
            ⟨some c, cache⟩).error = none) ↔ readLines c = ds)) := by
  refine ⟨readLines_joinLines_ne, fun n ds path suffix cache hne hc => ?_,
    fun n c ds path suffix cache hc => ?_⟩
  · have hmm : linesOldOf ⟨some (joinLines ds), cache⟩ ≠ ds :=
      readLines_joinLines_ne ds hne
    rw [sync_unfold_write n ds path suffix ⟨some (joinLines ds), cache⟩ hc hmm]
    rw [show (⟨some (joinLines ds), cache⟩ : SyncSt).cache = cache from rfl,
      sync_check_events_nil n ds path suffix (writtenContent ds) cache hc]
    simp [readEvents]
  · by_cases hup : readLines c = ds
    · have h1 : update_repository_list ds path suffix (n+2) false ⟨some c, cache⟩ =
          ⟨none, ⟨some c, cache ++ [suffix]⟩, readEvents path ⟨some c, cache⟩⟩ := by
        rw [update_repository_list, if_neg hc,
          if_pos (show linesOldOf ⟨some c, cache⟩ = ds from hup)]
      rw [h1]
      simp [readEvents, hup]
    · have hmm : linesOldOf ⟨some c, cache⟩ ≠ ds := hup
      rw [sync_unfold_write n ds path suffix ⟨some c, cache⟩ hc hmm]
      simp [readEvents, hup]

theorem claim_C10_amended_witness :
    ([['a'], ['b']] : List (List Char)) ≠ [] ∧
    "native" ∉ ([] : List String) ∧
    (update_repository_list [['a'], ['b']] "/r" "native" 2 false
        ⟨some (joinLines [['a'], ['b']]), []⟩).events =
      SyncEvent.rm "/r" ::
        [['a'], ['b']].map (fun l => SyncEvent.echoAppend l "/r") := by
  refine ⟨by decide, by decide, ?_⟩
  exact claim_C10_amended.2.1 0 [['a'], ['b']] "/r" "native" [] (by decide) (by decide)

/-! ### The necessity evaluator and the partition loop never invoke the
package manager -/

theorem iin_no_apk_events {W : Type} (env : Env W) (args : Args) :
    ∀ (fuel : Nat) (build : Bool) (arch package : String) (snap : Snapshot) (w : W),
      ∀ e ∈ (install_is_necessary env args fuel build arch package snap w).2.2,
        e.command = [] := by
  intro fuel
  induction fuel with
  | zero =>
    intro build arch package snap w e he
    simp [install_is_necessary] at he
  | succ n ih =>
    intro build arch package snap w e he
    have hbe : ∀ e2 ∈ necBuildEvents args build arch package, Event.command e2 = [] := by
      intro e2 he2
      unfold necBuildEvents at he2
      split at he2
      · simp at he2
        subst he2
        rfl
      · simp at he2
    by_cases hb : startsWithBang package = true
    · simp [install_is_necessary, hb] at he
    · rw [Bool.not_eq_true] at hb
      cases hlook : List.lookup package snap with
      | none =>
        simp only [install_is_necessary, hb, Bool.false_eq_true, if_false, hlook] at he
        exact hbe e he
      | some di =>
        cases hidx : env.index (necWorld env args build arch package w) package arch with
        | none =>
          by_cases hdis : buildDisabledFor args = true
          · simp only [install_is_necessary, hb, Bool.false_eq_true, if_false, hlook,
              hidx, hdis, if_true] at he
            exact hbe e he
          · rw [Bool.not_eq_true] at hdis
            simp only [install_is_necessary, hb, Bool.false_eq_true, if_false, hlook,
              hidx, hdis, List.mem_append, List.mem_cons] at he
            rcases he with (he | rfl | rfl | he) | he
            · exact hbe e he
            · rfl
            · rfl
            · simp at he
            · exact ih build arch package snap _ e he
        | some dr =>
          simp only [install_is_necessary, hb, Bool.false_eq_true, if_false, hlook,
            hidx] at he
          split at he <;>
            [skip; split at he <;> [skip; split at he <;> [skip; skip]]] <;>
            (simp only [List.mem_append, List.mem_cons, List.not_mem_nil,
               or_false] at he) <;>
            first
              | (rcases he with he | rfl
                 · exact hbe e he
                 · rfl)
              | exact hbe e he

theorem partition_no_apk_events {W : Type} (env : Env W) (args : Args) (fuel : Nat)
    (build : Bool) (arch : String) (snap : Snapshot) :
    ∀ (l toadd todel : List String) (w : W),
      ∀ e ∈ (partition_packages env args fuel build arch snap l toadd todel w).2.2,
        e.command = [] := by
  intro l
  induction l with
  | nil =>
    intro toadd todel w e he
    simp [partition_packages] at he
  | cons p rest ih =>
    intro toadd todel w e he
    rcases hr : install_is_necessary env args fuel build arch p snap w
      with ⟨out, w1, ev1⟩
    have hev1 : ∀ e2 ∈ ev1, Event.command e2 = [] := by
      intro e2 he2
      have := iin_no_apk_events env args fuel build arch p snap w e2
      rw [hr] at this
      exact this he2
    cases out with
    | fatal msg =>
      simp only [partition_packages, hr] at he
      exact hev1 e he
    | outOfFuel =>
      simp only [partition_packages, hr] at he
      exact hev1 e he
    | ret b =>
      simp only [partition_packages, hr, List.mem_append] at he
      rcases he with he | he
      · exact hev1 e he
      · exact ih _ _ _ e he

/-- **C3 counterexample**: for the request `["-x"]` with building enabled,
`install` does raise the fatal validation error and never invokes the
package manager, but side effects have already occurred before the error:
the chroot was initialized and the build collaborator ran for "-x" (the
world's build counter is 1), refuting "no mutating call (zero side
effects) has occurred before the error is raised". -/
theorem claim_C3_counterexample :
    (install envTriv argsA 2 ["-x"] "native" true ⟨0, []⟩).outcome =
      .err "Invalid package name: -x" ∧
    (∀ e ∈ (install envTriv argsA 2 ["-x"] "native" true ⟨0, []⟩).events,
      e.command = []) ∧
    Event.build "-x" "x86_64" false ∈
      (install envTriv argsA 2 ["-x"] "native" true ⟨0, []⟩).events ∧
    Event.chrootInit "native" ∈
      (install envTriv argsA 2 ["-x"] "native" true ⟨0, []⟩).events ∧
    (install envTriv argsA 2 ["-x"] "native" true ⟨0, []⟩).st.world = 1 := by
  refine ⟨by decide, by decide, by decide, by decide, by decide⟩

/-- **C3 amended**: whenever the partition produced by the necessity
evaluator contains a token beginning with `-`, `install` aborts with the
fatal validation error for the first such token and the package-manager
invocation collaborator is called zero times (every event in the trace
carries no package-manager command); chroot initialization and
build-collaborator invocations may however already have occurred. -/
theorem claim_C3_amended {W : Type} (env : Env W) (args : Args) (fuel : Nat)
    (packages : List String) (suffix : String) (build : Bool)
    (st st1 : PState W) (toadd todel : List String) (w2 : W) (ev1 : List Event)
    (p : String)
    (hmin : check_min_version env args suffix st = .ok st1)
    (hpart : partition_packages env args fuel build (env.archOf suffix)
      (env.installedOf suffix) (env.recurse packages suffix) [] [] st1.world =
      (.ok toadd todel, w2, ev1))
    (hfind : (toadd ++ todel).find? startsWithDash = some p) :
    (install env args fuel packages suffix build st).outcome =
      .err ("Invalid package name: " ++ p) ∧
    ∀ e ∈ (install env args fuel packages suffix build st).events,
      e.command = [] := by
  have hne : ¬(toadd = [] ∧ todel = []) := by
    rintro ⟨h1, h2⟩
    rw [h1, h2] at hfind
    simp at hfind
  have hinst : install env args fuel packages suffix build st =
      ⟨.err ("Invalid package name: " ++ p), ⟨w2, st1.minChecked⟩,
        [Event.chrootInit suffix] ++ ev1⟩ := by
    simp only [install, hmin, hpart, if_neg hne, hfind]
  rw [hinst]
  refine ⟨rfl, fun e he => ?_⟩
  rcases List.mem_append.mp he with he | he
  · simp at he
    subst he
    rfl
  · exact partition_no_apk_events env args fuel build (env.archOf suffix)
      (env.installedOf suffix) (env.recurse packages suffix) [] []
      st1.world e (by rw [hpart]; exact he)

theorem claim_C3_amended_witness :
    check_min_version envTriv argsA "native" (⟨0, []⟩ : PState Nat) = .ok ⟨0, []⟩ ∧
    partition_packages envTriv argsA 2 true (envTriv.archOf "native")
      (envTriv.installedOf "native") (envTriv.recurse ["-y"] "native") [] [] 0 =
      (.ok ["-y"] [], 1, [Event.build "-y" "x86_64" false]) ∧
    (["-y"] ++ ([] : List String)).find? startsWithDash = some "-y" ∧
    (install envTriv argsA 2 ["-y"] "native" true ⟨0, []⟩).outcome =
      .err ("Invalid package name: " ++ "-y") ∧
    ∀ e ∈ (install envTriv argsA 2 ["-y"] "native" true ⟨0, []⟩).events,
      e.command = [] := by
  refine ⟨rfl, by decide, by decide, ?_, ?_⟩
  · exact (claim_C3_amended envTriv argsA 2 ["-y"] "native" true ⟨0, []⟩ ⟨0, []⟩
      ["-y"] [] 1 [Event.build "-y" "x86_64" false] "-y" rfl (by decide) (by decide)).1
  · exact (claim_C3_amended envTriv argsA 2 ["-y"] "native" true ⟨0, []⟩ ⟨0, []⟩
      ["-y"] [] 1 [Event.build "-y" "x86_64" false] "-y" rfl (by decide) (by decide)).2

/-! ### Tokens reaching the package-manager invocation -/

/-- The artifact path substituted by the Local Path Resolver never begins
with `-` (it begins with `/`). -/
theorem apkPath_not_dash (arch p v : String) :
    startsWithDash (apkPath arch p v) = false := rfl

theorem replace_one_ok {W : Type} (env : Env W) (args : Args) (suffix arch : String)
    (w : W) (p q : String)
    (h : replace_one env args suffix arch w p = .ok q) :
    q = p ∨ ∃ v, q = apkPath arch p v := by
  unfold replace_one at h
  split at h
  · split at h
    · simp at h
    · split at h
      · right
        exact ⟨_, (Except.ok.inj h).symm⟩
      · left
        exact (Except.ok.inj h).symm
  · left
    exact (Except.ok.inj h).symm

theorem replace_aports_ok_mem {W : Type} (env : Env W) (args : Args)
    (suffix arch : String) (w : W) :
    ∀ (l out : List String),
      replace_aports_packages_with_path env args suffix arch w l = .ok out →
      ∀ q ∈ out, ∃ p ∈ l, replace_one env args suffix arch w p = .ok q := by
  intro l
  induction l with
  | nil =>
    intro out h q hq
    simp only [replace_aports_packages_with_path] at h
    cases h
    simp at hq
  | cons p ps ih =>
    intro out h q hq
    rw [replace_aports_packages_with_path] at h
    cases h1 : replace_one env args suffix arch w p with
    | error e => rw [h1] at h; simp at h
    | ok q1 =>
      rw [h1] at h
      cases h2 : replace_aports_packages_with_path env args suffix arch w ps with
      | error e => rw [h2] at h; simp at h
      | ok qs =>
        rw [h2] at h
        simp only [Except.ok.injEq] at h
        subst h
        rcases List.mem_cons.mp hq with rfl | hq
        · exact ⟨p, by simp, h1⟩
        · obtain ⟨p2, hp2, hrep⟩ := ih qs h2 q hq
          exact ⟨p2, by simp [hp2], hrep⟩

theorem compose_commands_tokens (pwc toadd todel : List String) :
    ∀ c ∈ compose_commands pwc toadd todel, ∀ t ∈ c,
      t = "add" ∨ t = "del" ∨ t = "-u" ∨ t = "--virtual" ∨ t = ".pmbootstrap" ∨
      t ∈ pwc ∨ t ∈ toadd ∨ t ∈ todel := by
  intro c hc t ht
  unfold compose_commands at hc
  rcases List.mem_append.mp hc with hc | hc
  · split at hc
    · simp only [List.mem_cons, List.not_mem_nil, or_false] at hc
      rcases hc with rfl | rfl | rfl <;>
        simp only [List.mem_cons, List.mem_append, List.not_mem_nil, or_false] at ht <;>
        tauto
    · simp only [List.mem_cons, List.not_mem_nil, or_false] at hc
      subst hc
      simp only [List.mem_cons, List.mem_append] at ht
      tauto
  · split at hc
    · simp only [List.mem_cons, List.not_mem_nil, or_false] at hc
      subst hc
      simp only [List.mem_append, List.mem_cons, List.not_mem_nil, or_false] at ht
      tauto
    · exact absurd hc (List.not_mem_nil c)

theorem exec_events_tokens (offline : Bool) :
    ∀ (commands : List (List String)), ∀ e ∈ exec_events offline commands,
      ∀ t ∈ e.command,
        t = "apk" ∨ t = "--no-progress" ∨ t = "--no-network" ∨
          ∃ c ∈ commands, t ∈ c := by
  intro commands
  cases commands with
  | nil => simp [exec_events]
  | cons c0 rest =>
    intro e he t ht
    simp only [exec_events, List.mem_cons, List.mem_map] at he
    rcases he with rfl | ⟨c, hcmem, rfl⟩
    · simp only [Event.command, List.mem_cons] at ht
      rcases ht with rfl | ht
      · exact Or.inl rfl
      · cases offline with
        | false =>
          exact Or.inr (Or.inr (Or.inr ⟨c0, by simp, by simpa using ht⟩))
        | true =>
          simp only [if_true] at ht
          rcases List.mem_cons.mp ht with rfl | ht
          · exact Or.inr (Or.inr (Or.inl rfl))
          · exact Or.inr (Or.inr (Or.inr ⟨c0, by simp, ht⟩))
    · simp only [Event.command, List.mem_cons] at ht
      rcases ht with rfl | rfl | ht
      · exact Or.inl rfl
      · exact Or.inr (Or.inl rfl)
      · cases offline with
        | false =>
          exact Or.inr (Or.inr (Or.inr ⟨c, by simp [hcmem], by simpa using ht⟩))
        | true =>
          simp only [if_true] at ht
          rcases List.mem_cons.mp ht with rfl | ht
          · exact Or.inr (Or.inr (Or.inl rfl))
          · exact Or.inr (Or.inr (Or.inr ⟨c, by simp [hcmem], ht⟩))

/-- **C4 amended**: provided the originally-requested names themselves do
not begin with `-`, every token of every command passed to a
package-manager invocation by a non-aborting `install` either is one of
the fixed apk flags inserted by the code itself (`-u`, `--virtual`,
`--no-progress`, `--no-network`) or begins with a character other than
`-`. (The proviso is forced: command 0 is built from the
originally-requested set, which is not re-validated when the necessity
filter dropped its `-`-prefixed members.) -/
theorem claim_C4_amended {W : Type} (env : Env W) (args : Args) (fuel : Nat)
    (packages : List String) (suffix : String) (build : Bool) (st : PState W)
    (hreq : ∀ p ∈ packages, startsWithDash p = false)
    (hok : (install env args fuel packages suffix build st).outcome = .ok) :
    ∀ e ∈ (install env args fuel packages suffix build st).events, ∀ t ∈ e.command,
      t = "-u" ∨ t = "--virtual" ∨ t = "--no-progress" ∨ t = "--no-network" ∨
      startsWithDash t = false := by
  intro e he t ht
  cases hmin : check_min_version env args suffix st with
  | error msg =>
    rw [show install env args fuel packages suffix build st = ⟨.err msg, st, []⟩
      from by simp only [install, hmin]] at he
    simp at he
  | ok st1 =>
    rcases hpart : partition_packages env args fuel build (env.archOf suffix)
        (env.installedOf suffix) (env.recurse packages suffix) [] [] st1.world
      with ⟨pout, w2, ev1⟩
    have hev1 : ∀ e2 ∈ ev1, Event.command e2 = [] := fun e2 he2 =>
      partition_no_apk_events env args fuel build (env.archOf suffix)
        (env.installedOf suffix) (env.recurse packages suffix) [] [] st1.world e2
        (by rw [hpart]; exact he2)
    cases pout with
    | err msg =>
      rw [show install env args fuel packages suffix build st =
          ⟨.err msg, ⟨w2, st1.minChecked⟩, [Event.chrootInit suffix] ++ ev1⟩
        from by simp only [install, hmin, hpart]] at hok
      simp at hok
    | outOfFuel =>
      rw [show install env args fuel packages suffix build st =
          ⟨.outOfFuel, ⟨w2, st1.minChecked⟩, [Event.chrootInit suffix] ++ ev1⟩
        from by simp only [install, hmin, hpart]] at hok
      simp at hok
    | ok toadd todel =>
      by_cases hemp : toadd = [] ∧ todel = []
      · rw [show install env args fuel packages suffix build st =
            ⟨.ok, ⟨w2, st1.minChecked⟩, [Event.chrootInit suffix] ++ ev1⟩
          from by simp only [install, hmin, hpart, if_pos hemp]] at he
        rcases List.mem_append.mp he with he | he
        · simp at he
          subst he
          simp [Event.command] at ht
        · rw [hev1 e he] at ht
          simp at ht
      · cases hfind : (toadd ++ todel).find? startsWithDash with
        | some p =>
          rw [show install env args fuel packages suffix build st =
              ⟨.err ("Invalid package name: " ++ p), ⟨w2, st1.minChecked⟩,
                [Event.chrootInit suffix] ++ ev1⟩
            from by simp only [install, hmin, hpart, if_neg hemp, hfind]] at hok
          simp at hok
        | none =>
          have hdashfree : ∀ x ∈ toadd ++ todel, startsWithDash x = false := by
            intro x hx
            have h0 := List.find?_eq_none.mp hfind x hx
            simpa using h0
          cases hrep : replace_aports_packages_with_path env args suffix
              (env.archOf suffix) w2 toadd with
          | error msg =>
            rw [show install env args fuel packages suffix build st =
                ⟨.err msg, ⟨w2, st1.minChecked⟩,
                  [Event.chrootInit suffix] ++ ev1 ++
                    [Event.info (install_message suffix packages
                      (env.installedOf suffix))]⟩
              from by simp only [install, hmin, hpart, if_neg hemp, hfind, hrep]] at hok
            simp at hok
          | ok toadd2 =>
            rw [show install env args fuel packages suffix build st =
                ⟨.ok, ⟨w2, st1.minChecked⟩,
                  [Event.chrootInit suffix] ++ ev1 ++
                    [Event.info (install_message suffix packages
                      (env.installedOf suffix))] ++
                    exec_events args.offline (compose_commands
                      (packages.filter (fun p => !startsWithBang p)) toadd2 todel)⟩
              from by simp only [install, hmin, hpart, if_neg hemp, hfind, hrep]] at he
            rcases List.mem_append.mp he with he | he
            · rcases List.mem_append.mp he with he | he
              · rcases List.mem_append.mp he with he | he
                · simp at he
                  subst he
                  simp [Event.command] at ht
                · rw [hev1 e he] at ht
                  simp at ht
              · simp at he
                subst he
                simp [Event.command] at ht
            · rcases exec_events_tokens args.offline _ e he t ht with
                rfl | rfl | rfl | ⟨c, hcm, htc⟩
              · exact Or.inr (Or.inr (Or.inr (Or.inr rfl)))
              · exact Or.inr (Or.inr (Or.inl rfl))
              · exact Or.inr (Or.inr (Or.inr (Or.inl rfl)))
              · rcases compose_commands_tokens _ _ _ c hcm t htc with
                  rfl | rfl | rfl | rfl | rfl | htk | htk | htk
                · exact Or.inr (Or.inr (Or.inr (Or.inr rfl)))
                · exact Or.inr (Or.inr (Or.inr (Or.inr rfl)))
                · exact Or.inl rfl
                · exact Or.inr (Or.inl rfl)
                · exact Or.inr (Or.inr (Or.inr (Or.inr rfl)))
                · exact Or.inr (Or.inr (Or.inr (Or.inr
                    (hreq t (List.mem_of_mem_filter htk)))))
                · obtain ⟨p2, hp2, hro⟩ := replace_aports_ok_mem env args suffix
                    (env.archOf suffix) w2 toadd toadd2 hrep t htk
                  rcases replace_one_ok env args suffix (env.archOf suffix) w2 p2 t hro
                    with rfl | ⟨v, rfl⟩
                  · exact Or.inr (Or.inr (Or.inr (Or.inr
                      (hdashfree t (List.mem_append_left todel hp2)))))
                  · exact Or.inr (Or.inr (Or.inr (Or.inr
                      (apkPath_not_dash (env.archOf suffix) p2 v))))
                · exact Or.inr (Or.inr (Or.inr (Or.inr
                    (hdashfree t (List.mem_append_right toadd htk)))))

theorem claim_C4_amended_witness :
    (∀ p ∈ ["a"], startsWithDash p = false) ∧
    (install envTriv argsA 2 ["a"] "native" false ⟨0, []⟩).outcome = .ok ∧
    ∀ e ∈ (install envTriv argsA 2 ["a"] "native" false ⟨0, []⟩).events,
      ∀ t ∈ e.command,
        t = "-u" ∨ t = "--virtual" ∨ t = "--no-progress" ∨ t = "--no-network" ∨
        startsWithDash t = false := by
  refine ⟨by decide, by decide, ?_⟩
  exact claim_C4_amended envTriv argsA 2 ["a"] "native" false ⟨0, []⟩
    (by decide) (by decide)

/-- **C4 counterexample**: the request `["-x", "!b"]` with "-x" installed
at a newer version than the repository (so the necessity filter drops it)
and "b" installed does not abort — yet command 0, built from the
originally-requested set with only `!`-markers filtered, reaches the
package manager carrying the token "-x", which begins with `-`. -/
theorem claim_C4_counterexample :
    (install envC4 argsA 2 ["-x", "!b"] "native" false ⟨0, []⟩).outcome = .ok ∧
    Event.apkProgress ["apk", "add", "-x"] ∈
      (install envC4 argsA 2 ["-x", "!b"] "native" false ⟨0, []⟩).events ∧
    startsWithDash "-x" = true := by
  refine ⟨by decide, by decide, by decide⟩

/-- **C5**: the composed command sequence starts with a single add command
over the originally-requested set with removal-marked entries removed;
that command is replaced by the three-step virtual-package transaction iff
the path-resolved add-set is non-empty and differs from the plain
requested set; a removal command for the remove-set names is appended iff
the remove-set is non-empty; and for the request `["a", "!b"]` with "a"
not installed and not locally buildable and "b" installed, the executed
sequence is `add a` then `del b` with no virtual-package transaction. -/
theorem claim_C5_command_composition :
    (∀ (packages toadd todel : List String),
      toadd = [] ∨ packages.filter (fun p => !startsWithBang p) = toadd →
      compose_commands (packages.filter (fun p => !startsWithBang p)) toadd todel =
        [["add"] ++ packages.filter (fun p => !startsWithBang p)] ++
          (if todel ≠ [] then [["del"] ++ todel] else [])) ∧
    (∀ (pwc toadd todel : List String), toadd ≠ [] → pwc ≠ toadd →
      compose_commands pwc toadd todel =
        [["add", "-u", "--virtual", ".pmbootstrap"] ++ toadd,
         ["add"] ++ pwc, ["del", ".pmbootstrap"]] ++
          (if todel ≠ [] then [["del"] ++ todel] else [])) ∧
    (install envD argsA 2 ["a", "!b"] "native" true ⟨0, []⟩ =
      ⟨.ok, ⟨1, []⟩,
        [Event.chrootInit "native", Event.build "a" "x86_64" false,
         Event.info "(native) install a !b",
         Event.apkProgress ["apk", "add", "a"],
         Event.apkSilent ["apk", "--no-progress", "del", "b"]]⟩) := by
  refine ⟨fun packages toadd todel h => ?_, fun pwc toadd todel h1 h2 => ?_,
    by decide⟩
  · unfold compose_commands
    rw [if_neg (by rcases h with h | h <;> simp [h])]
  · unfold compose_commands
    rw [if_pos ⟨h1, h2⟩]

theorem claim_C5_command_composition_witness :
    (["x"] : List String) ≠ [] ∧ (["a"] : List String) ≠ ["x"] ∧
    compose_commands ["a"] ["x"] ["c"] =
      [["add", "-u", "--virtual", ".pmbootstrap", "x"], ["add", "a"],
       ["del", ".pmbootstrap"], ["del", "c"]] := by
  refine ⟨by decide, by decide, ?_⟩
  rw [claim_C5_command_composition.2.1 ["a"] ["x"] ["c"] (by decide) (by decide)]
  decide

end Pmb
